import Mathlib

/-!
Verification of the scatter/gather subsystem and the in-place mutation
emulation layer of ivy's JAX backend (`ivy/functional/backends/jax/general.py`).

Arrays are embedded as row-major flat buffers with an explicit shape
(`GTensor`): `jnp.reshape(params, (-1,))` exposes exactly this layout, and the
module's index arithmetic (`res_dim_sizes`, flat offsets) is all phrased over
it.  Array elements are modelled as exact integers (every value the claims
touch, including the `1e12` sentinels, is integral and exactly representable
in the floating formats the code uses).  Python exceptions are modelled with
`Except IvyError`; the distinct raise sites of the source get distinct
constructors.
-/

/-- A shaped tensor over a flat row-major data buffer. -/
structure GTensor (α : Type) where
  shape : List Nat
  data : List α
deriving DecidableEq

/-- Value tensors (jnp arrays of numbers). -/
abbrev Tensor := GTensor Int

/-- Integer index tensors. -/
abbrev NatTensor := GTensor Nat

/-- Product of a shape's dimensions (`reduce(mul, xs, 1)` in the source). -/
def prodList (l : List Nat) : Nat := l.prod

/-- Dot product of two coordinate lists (`jnp.sum(indices * scales, -1)`). -/
def dotList (a b : List Nat) : Nat := (List.zipWith (· * ·) a b).sum

/-- Row-major strides of a shape: entry `i` is the product of the dimensions
after `i`.  This is the layout exposed by flattening a tensor. -/
def strides : List Nat → List Nat
  | [] => []
  | _ :: ds => prodList ds :: strides ds

/-- All multi-indices of a shape, enumerated in row-major order. -/
def multiIndices : List Nat → List (List Nat)
  | [] => [[]]
  | d :: ds => (List.range d).flatMap (fun i => (multiIndices ds).map (i :: ·))

/-- Row-major element lookup `A[idx]` over the flat buffer. -/
def elemAt (data : List Int) (shape : List Nat) (idx : List Nat) : Int :=
  data.getD (dotList idx (strides shape)) 0

/-- The full trailing slice `A[*t, ...]`: all elements whose leading
coordinates are `t`, in row-major order.  This is the specification-side
meaning of "the corresponding block of the result equals `A[*t, ...]`". -/
def trailingSlice (data : List Int) (shape : List Nat) (t : List Nat) : List Int :=
  (multiIndices (shape.drop t.length)).map (fun j => elemAt data shape (t ++ j))

/-! ## Embedding of `gather_nd` (source lines 108-135) -/

/-- `res_dim_sizes_list` from the source:
`[reduce(mul, params_shape[i+1:], 1) for i in range(len(params_shape)-1)] + [1]`. -/
def res_dim_sizes (shape : List Nat) : List Nat :=
  ((List.range (shape.length - 1)).map (fun i => prodList (shape.drop (i + 1)))) ++ [1]

/-- Row `p` of the `(-1, k)` reshape of a flat index buffer. -/
def idxTuple (indicesFlat : List Nat) (k p : Nat) : List Nat :=
  (indicesFlat.drop (p * k)).take k

/-- `jnp.take(flat_params, i, 0)`: JAX clamps out-of-range gather indices. -/
def jtake (params : List Int) (i : Nat) : Int :=
  params.getD (min i (params.length - 1)) 0

/-- `gather_nd(params, indices)`: per-axis strides, flat offsets by dot
product, a contiguous implicit trailing run per index tuple, one flat take,
and a reshape to `indices.shape[:-1] + params.shape[k:]`.
`numIndexDims = 0` reads the last stride, mirroring Python's negative
indexing of `result_dim_sizes[num_index_dims - 1]`. -/
def gather_nd (params : Tensor) (indices : NatTensor) : Tensor :=
  let numIndexDims := indices.shape.getLastD 0
  let resDimSizes := res_dim_sizes params.shape
  let implicitIndicesFactor :=
    if numIndexDims = 0 then resDimSizes.getLastD 0 else resDimSizes.getD (numIndexDims - 1) 0
  let numTuples := prodList indices.shape.dropLast
  let offsets := (List.range numTuples).map
    (fun p => dotList (idxTuple indices.data numIndexDims p) (resDimSizes.take numIndexDims))
  let flatIndicesForFlat :=
    offsets.flatMap (fun o => (List.range implicitIndicesFactor).map (fun r => o + r))
  ⟨indices.shape.dropLast ++ params.shape.drop numIndexDims,
    flatIndicesForFlat.map (jtake params.data)⟩

/-! ## Embedding of `scatter_flat` (source lines 200-240) -/

/-- One constructor per distinct failure mode of the source:
`ivy.assertions.check_equal` failures, the invalid-reduction raise (which
carries the offending reduction string), `ivy.broadcast_to` failures, and
Python-level `TypeError`/`AttributeError` (e.g. `jnp.zeros([None])`,
`None.shape`). -/
inductive IvyError
  | assertionError
  | invalidReduction (reduction : String)
  | broadcastError
  | typeError
  | inplaceNotSupported
deriving DecidableEq

/-- Models `target.at[indices].op(updates)` for a rank-1 target: each
position combines the updates addressed to it, in order, with `op`; JAX
drops out-of-bounds scatter indices (its default scatter mode). -/
def scatterOp (op : Int → Int → Int) (target : List Int) (indices : List Nat)
    (updates : List Int) : List Int :=
  (List.range target.length).map (fun j =>
    (((indices.zip updates).filter (fun iu => iu.1 == j)).map Prod.snd).foldl op
      (target.getD j 0))

/-- The `min` reduction's identity sentinel `1e12` (exact in the source's
float dtypes at this magnitude); `max` uses its negation. -/
def sentinel : Int := 1000000000000

/-- The reduction dispatch of `scatter_flat` (lines 214-240).  The `Bool`
in the result records whether the returned value was routed through
`ivy.inplace_update`; `scatter_flat` returns `_to_device(target)` directly
on every path, so it is always `false` here. -/
def scatter_flat_core (indices : List Nat) (updates : List Int) (size : Option Nat)
    (reduction : String) (out : Option Tensor) : Except IvyError (Tensor × Bool) :=
  if reduction = "sum" then
    match out, size with
    | some t, _ => .ok (⟨t.shape, scatterOp (· + ·) t.data indices updates⟩, false)
    | none, some s => .ok (⟨[s], scatterOp (· + ·) (List.replicate s 0) indices updates⟩, false)
    | none, none => .error .typeError
  else if reduction = "replace" then
    match out, size with
    | some t, _ => .ok (⟨t.shape, scatterOp (fun _ u => u) t.data indices updates⟩, false)
    | none, some s =>
        .ok (⟨[s], scatterOp (fun _ u => u) (List.replicate s 0) indices updates⟩, false)
    | none, none => .error .typeError
  else if reduction = "min" then
    match out, size with
    | some t, _ => .ok (⟨t.shape, scatterOp min t.data indices updates⟩, false)
    | none, some s =>
        .ok (⟨[s], (scatterOp min (List.replicate s sentinel) indices updates).map
          (fun v => if v = sentinel then 0 else v)⟩, false)
    | none, none => .error .typeError
  else if reduction = "max" then
    match out, size with
    | some t, _ => .ok (⟨t.shape, scatterOp max t.data indices updates⟩, false)
    | none, some s =>
        .ok (⟨[s], (scatterOp max (List.replicate s (-sentinel)) indices updates).map
          (fun v => if v = -sentinel then 0 else v)⟩, false)
    | none, none => .error .typeError
  else .error (.invalidReduction reduction)

/-- `scatter_flat(indices, updates, size=..., reduction=..., out=...)`:
when both `size` and an output buffer are given, `check_equal(len(target.shape), 1)`
then `check_equal(target.shape[0], size)` run before any reduction work. -/
def scatter_flat (indices : List Nat) (updates : List Int) (size : Option Nat)
    (reduction : String) (out : Option Tensor) : Except IvyError (Tensor × Bool) :=
  match size, out with
  | some s, some t =>
      if t.shape.length = 1 then
        if t.shape.getD 0 0 = s then scatter_flat_core indices updates size reduction out
        else .error .assertionError
      else .error .assertionError
  | _, _ => scatter_flat_core indices updates size reduction out

/-! ## Embedding of `scatter_nd` (source lines 243-331) -/

/-- The `indices` argument of `scatter_nd`: the Ellipsis select-everything
marker, a bare number, or an index array.  (The tuple forms `()` and
tuple-containing-Ellipsis of line 254 are outside the embedded domain.) -/
inductive IndicesArg
  | ellipsisIdx
  | numIdx (n : Nat)
  | arrIdx (t : NatTensor)
deriving DecidableEq

/-- Right-aligned numpy broadcast compatibility of `src` into `dst`. -/
def bcastCompat (src dst : List Nat) : Bool :=
  decide (src.length ≤ dst.length) &&
    (List.zipWith (fun s d => s == d || s == 1) src.reverse dst.reverse).all id

/-- Source coordinates corresponding to destination multi-index `j` under a
right-aligned broadcast: drop the fresh leading axes, clamp size-1 axes. -/
def bcastIndex (srcShape j : List Nat) : List Nat :=
  List.zipWith (fun s c => if s = 1 then 0 else c) srcShape
    (j.drop (j.length - srcShape.length))

/-- Modelled from the spec: `ivy.broadcast_to(array, shape)` is an external
collaborator (one of the framework's "existence/shape/dtype helpers",
section 6 of the spec); numpy-style right-aligned broadcast of a tensor to a
target shape, failing when some axis is neither equal to the target's nor 1. -/
def broadcastTo {α : Type} (t : GTensor α) (s : List Nat) (d : α) : Option (GTensor α) :=
  if bcastCompat t.shape s then
    some ⟨s, (multiIndices s).map
      (fun j => t.data.getD (dotList (bcastIndex t.shape j) (strides t.shape)) d)⟩
  else none

/-- Lines 254-260: a bare number becomes `[[n]]` (a rank-2 array); an array
of rank < 2 gets one leading axis.  `none` is the Ellipsis marker, which
bypasses normalization. -/
def normalizeIndices : IndicesArg → Option NatTensor
  | .ellipsisIdx => none
  | .numIdx n => some ⟨[1, 1], [n]⟩
  | .arrIdx t => some (if t.shape.length < 2 then ⟨1 :: t.shape, t.data⟩ else t)

/-- Lines 275-279: the expected updates shape, `indices.shape[:-1]` plus the
target's trailing shape beyond the first `indices.shape[-1]` axes, taken
from `out` when it exists, else from the explicit `shape` argument (`none`
when both are absent: the source faults subscripting `None` there). -/
def scatter_nd_expected_shape (indicesShape : List Nat) (outShape shape : Option (List Nat)) :
    Option (List Nat) :=
  match outShape, shape with
  | some os, _ => some (indicesShape.dropLast ++ os.drop (indicesShape.getLastD 0))
  | none, some s => some (indicesShape.dropLast ++ s.drop (indicesShape.getLastD 0))
  | none, none => none

/-- Lines 280-285: broadcast the smaller side, the sides judged by comparing
the sums of their shape dimensions; with equal sums neither is broadcast. -/
def scatter_nd_resolve (it : NatTensor) (updates : Tensor) (outShape shape : Option (List Nat)) :
    Except IvyError (NatTensor × Tensor) :=
  match scatter_nd_expected_shape it.shape outShape shape with
  | none => .error .typeError
  | some expected =>
    if updates.shape.sum < expected.sum then
      match broadcastTo updates expected 0 with
      | some u => .ok (it, u)
      | none => .error .broadcastError
    else if expected.sum < updates.shape.sum then
      match broadcastTo it (updates.shape.take 1 ++ [it.shape.getLastD 0]) 0 with
      | some it2 => .ok (it2, updates)
      | none => .error .broadcastError
    else .ok (it, updates)

/-- Lines 286-287: the rows of `indices.reshape(-1, k)`; transposed into
per-axis coordinate vectors plus a trailing Ellipsis they address, for each
row, the whole trailing block of the target at that tuple. -/
def idxTuples (it : NatTensor) : List (List Nat) :=
  (List.range (prodList it.shape.dropLast)).map
    (fun p => idxTuple it.data (it.shape.getLastD 0) p)

/-- Per-axis bounds test of a scatter tuple against the first `k` target
axes (JAX drops out-of-bounds scatter updates, its default scatter mode). -/
def tupleInBounds : List Nat → List Nat → Bool
  | [], [] => true
  | a :: t₁, b :: t₂ => decide (a < b) && tupleInBounds t₁ t₂
  | _, _ => false

/-- The updates delivered to flat position `pos` by
`target.at[coordinate-vectors + Ellipsis].op(updates)`: each in-bounds tuple
(row `r`) addresses the contiguous run of `blockSize` flat positions at its
flat offset and delivers row `r` of `updates` across that run. -/
def ndUpdatesAt (targetShape : List Nat) (k : Nat) (tuples : List (List Nat))
    (updatesData : List Int) (pos : Nat) : List Int :=
  let blockSize := prodList (targetShape.drop k)
  (List.range tuples.length).filterMap (fun r =>
    let t := tuples.getD r []
    if tupleInBounds t (targetShape.take k) then
      let offset := dotList t ((strides targetShape).take k)
      if offset ≤ pos ∧ pos < offset + blockSize then
        some (updatesData.getD (r * blockSize + (pos - offset)) 0)
      else none
    else none)

/-- Models `target.at[indices_tuple].op(updates)` for the coordinate-vector
addressing mode: positionwise fold of the addressed updates, in row order. -/
def scatterNdOp (op : Int → Int → Int) (targetShape : List Nat) (targetData : List Int)
    (k : Nat) (tuples : List (List Nat)) (updatesData : List Int) : List Int :=
  (List.range targetData.length).map (fun pos =>
    (ndUpdatesAt targetShape k tuples updatesData pos).foldl op (targetData.getD pos 0))

/-- Models `target.at[Ellipsis].op(updates)`: updates broadcast over the
whole target and combined elementwise. -/
def scatterEllipsisOp (op : Int → Int → Int) (target updates : Tensor) :
    Except IvyError Tensor :=
  match broadcastTo updates target.shape 0 with
  | some u => .ok ⟨target.shape, List.zipWith op target.data u.data⟩
  | none => .error .broadcastError

/-- The indices preprocessing of `scatter_nd` (lines 253-287): numeric
normalization then, for array indices, broadcast resolution and conversion
to flat coordinate tuples.  `none` in the first component is the Ellipsis
addressing mode.  (The dtype cast of `updates` at lines 264-269 is the
identity in this single-dtype model.) -/
def scatter_nd_pre (indices₀ : IndicesArg) (updates : Tensor) (shape : Option (List Nat))
    (out : Option Tensor) : Except IvyError (Option (Nat × List (List Nat)) × Tensor) :=
  match normalizeIndices indices₀ with
  | none => .ok (none, updates)
  | some it =>
    match scatter_nd_resolve it updates (out.map (·.shape)) shape with
    | .ok (it2, u2) => .ok (some (it2.shape.getLastD 0, idxTuples it2), u2)
    | .error e => .error e

/-- Dispatch of one reduction write over either addressing mode. -/
def scatter_nd_apply (op : Int → Int → Int) (target : Tensor)
    (tuplesK : Option (Nat × List (List Nat))) (updates : Tensor) : Except IvyError Tensor :=
  match tuplesK with
  | some (k, tuples) =>
      .ok ⟨target.shape, scatterNdOp op target.shape target.data k tuples updates.data⟩
  | none => scatterEllipsisOp op target updates

/-- The reduction dispatch of `scatter_nd` (lines 295-327), after shape
validation; `shape` is the resolved target shape of line 294.  The `Bool`
records whether the result was routed through `ivy.inplace_update`
(lines 325-326): exactly when an output buffer exists. -/
def scatter_nd_core (tuplesK : Option (Nat × List (List Nat))) (updates : Tensor)
    (shape : List Nat) (reduction : String) (out : Option Tensor) :
    Except IvyError (Tensor × Bool) :=
  if reduction = "sum" then
    match scatter_nd_apply (· + ·) (out.getD ⟨shape, List.replicate (prodList shape) 0⟩)
        tuplesK updates with
    | .ok t => .ok (t, out.isSome)
    | .error e => .error e
  else if reduction = "replace" then
    match scatter_nd_apply (fun _ u => u) (out.getD ⟨shape, List.replicate (prodList shape) 0⟩)
        tuplesK updates with
    | .ok t => .ok (t, out.isSome)
    | .error e => .error e
  else if reduction = "min" then
    match scatter_nd_apply min (out.getD ⟨shape, List.replicate (prodList shape) sentinel⟩)
        tuplesK updates with
    | .ok t =>
        .ok ((if out.isSome then t
          else ⟨t.shape, t.data.map (fun v => if v = sentinel then 0 else v)⟩), out.isSome)
    | .error e => .error e
  else if reduction = "max" then
    match scatter_nd_apply max (out.getD ⟨shape, List.replicate (prodList shape) (-sentinel)⟩)
        tuplesK updates with
    | .ok t =>
        .ok ((if out.isSome then t
          else ⟨t.shape, t.data.map (fun v => if v = -sentinel then 0 else v)⟩), out.isSome)
    | .error e => .error e
  else .error (.invalidReduction reduction)

/-- `scatter_nd(indices, updates, shape=..., reduction=..., out=...)`
(lines 243-327): preprocessing, the `check_equal(Shape(target.shape),
Shape(shape))` validation when both a shape and a buffer are given, target
shape resolution (line 294, faulting when neither exists), and the
reduction dispatch. -/
def scatter_nd (indices₀ : IndicesArg) (updates : Tensor) (shape : Option (List Nat))
    (reduction : String) (out : Option Tensor) : Except IvyError (Tensor × Bool) :=
  match scatter_nd_pre indices₀ updates shape out with
  | .error e => .error e
  | .ok (tuplesK, updates2) =>
    match shape, out with
    | some s, some t =>
        if t.shape = s then scatter_nd_core tuplesK updates2 s reduction (some t)
        else .error .assertionError
    | some s, none => scatter_nd_core tuplesK updates2 s reduction none
    | none, some t => scatter_nd_core tuplesK updates2 t.shape reduction (some t)
    | none, none => .error .typeError

/-! ## Embedding of the mutation-emulation layer (source lines 146-191) -/

/-- A framework-level value: a framework-owned wrapper (`ivy.Array`, whose
`data` slot is rebindable), a bare native array (`JaxArray`, immutable), or
a non-array value. -/
inductive Val
  | ivyArr (data : List Int)
  | nativeArr (data : List Int)
  | nonArray (x : Int)
deriving DecidableEq

/-- `ivy.is_array`: framework wrapper or native array. -/
def is_array : Val → Bool
  | .nonArray _ => false
  | _ => true

/-- `ivy.is_ivy_array`: only the framework-owned wrapper. -/
def is_ivy_array : Val → Bool
  | .ivyArr _ => true
  | _ => false

/-- `ivy.args_to_native` on an array argument: unwrap to the native buffer.
(The `nonArray` case is never consulted by the call sites below, which all
guard on `is_array` or only apply it to array-typed parameters.) -/
def toNative : Val → List Int
  | .ivyArr d => d
  | .nativeArr d => d
  | .nonArray _ => []

/-- `inplace_update(x, val, ensure_in_backend)` (lines 168-187): when both
arguments are arrays, an `ensure_in_backend` request raises, a
framework-owned `x` has its data slot rebound to `val`'s native buffer, and
a bare native `x` raises; otherwise the call is a passthrough returning
`val`. -/
def inplace_update (x val : Val) (ensure_in_backend : Bool) : Except IvyError Val :=
  if is_array x && is_array val then
    if ensure_in_backend then .error .inplaceNotSupported
    else if is_ivy_array x then .ok (.ivyArr (toNative val))
    else .error .inplaceNotSupported
  else .ok val

/-- `inplace_increment(x, val)` (lines 157-165): rebind the wrapper's data
slot to `data + val` when `x` is framework-owned, otherwise construct a new
wrapper from the computed result.  Elementwise `+` is modelled on
equal-length buffers by `zipWith`. -/
def inplace_increment (x val : Val) : Val :=
  if is_ivy_array x then .ivyArr (List.zipWith (· + ·) (toNative x) (toNative val))
  else .ivyArr (List.zipWith (· + ·) (toNative x) (toNative val))

/-- `inplace_decrement(x, val)` (lines 146-154): as increment, with `-`. -/
def inplace_decrement (x val : Val) : Val :=
  if is_ivy_array x then .ivyArr (List.zipWith (· - ·) (toNative x) (toNative val))
  else .ivyArr (List.zipWith (· - ·) (toNative x) (toNative val))

/-! ## Layout lemmas for the stride-flattening arithmetic -/

theorem strides_len : ∀ (s : List Nat), (strides s).length = s.length
  | [] => rfl
  | _ :: t => by simp [strides, strides_len t]

theorem strides_getD : ∀ (s : List Nat) (i : Nat), i < s.length →
    (strides s).getD i 0 = prodList (s.drop (i + 1)) := by
  intro s
  induction s with
  | nil => intro i h; simp at h
  | cons d t ih =>
      intro i h
      cases i with
      | zero => simp [strides]
      | succ m =>
          simp only [strides, List.getD_cons_succ, List.drop_succ_cons]
          exact ih m (by simpa using h)

theorem strides_drop : ∀ (s : List Nat) (k : Nat), (strides s).drop k = strides (s.drop k) := by
  intro s
  induction s with
  | nil => intro k; simp [strides]
  | cons d t ih =>
      intro k
      cases k with
      | zero => simp
      | succ m => simpa [strides, List.drop_succ_cons] using ih m

theorem res_dim_sizes_eq_strides : ∀ (s : List Nat), s ≠ [] → res_dim_sizes s = strides s := by
  intro s
  induction s with
  | nil => intro h; exact absurd rfl h
  | cons d t ih =>
      intro _
      cases t with
      | nil => simp [res_dim_sizes, strides, prodList]
      | cons e ts =>
          rw [strides, ← ih (by simp)]
          simp only [res_dim_sizes, List.length_cons, Nat.add_sub_cancel,
            List.range_succ_eq_map, List.map_cons, List.map_map, List.drop_succ_cons,
            List.cons_append, List.drop_zero]
          simp [Function.comp_def]

theorem dotList_nil_right : ∀ (a : List Nat), dotList a [] = 0 := by
  intro a; cases a <;> simp [dotList]

theorem dotList_cons : ∀ (x y : Nat) (a b : List Nat),
    dotList (x :: a) (y :: b) = x * y + dotList a b := by
  intro x y a b; simp [dotList]

theorem dotList_take_self : ∀ (t s : List Nat), dotList t (s.take t.length) = dotList t s := by
  intro t
  induction t with
  | nil => intro s; simp [dotList]
  | cons x a ih =>
      intro s
      cases s with
      | nil => simp [dotList]
      | cons y b => simp only [List.length_cons, List.take_succ_cons, dotList_cons, ih]

theorem dotList_append_split : ∀ (a b c : List Nat),
    dotList (a ++ b) c = dotList a c + dotList b (c.drop a.length) := by
  intro a
  induction a with
  | nil => intro b c; simp [dotList]
  | cons x t ih =>
      intro b c
      cases c with
      | nil => simp [dotList_nil_right]
      | cons y cs =>
          simp only [List.cons_append, dotList_cons, ih, List.length_cons,
            List.drop_succ_cons]
          omega

theorem range_mul_flatMap (d p : Nat) :
    List.range (d * p)
      = (List.range d).flatMap (fun i => (List.range p).map (fun r => i * p + r)) := by
  induction d with
  | zero => simp
  | succ n ih =>
      rw [Nat.succ_mul, List.range_add, ih, List.range_succ, List.flatMap_append]
      simp

theorem multiIndices_dot (ds : List Nat) :
    (multiIndices ds).map (fun j => dotList j (strides ds)) = List.range (prodList ds) := by
  induction ds with
  | nil =>
      simp only [multiIndices, strides, dotList, prodList, List.map_cons, List.map_nil,
        List.zipWith_nil_right, List.sum_nil, List.prod_nil]
      decide
  | cons d t ih =>
      show ((List.range d).flatMap (fun i => (multiIndices t).map (i :: ·))).map
        (fun j => dotList j (prodList t :: strides t)) = List.range (prodList (d :: t))
      rw [List.map_flatMap]
      have h1 : (fun i => ((multiIndices t).map (i :: ·)).map
            (fun j => dotList j (prodList t :: strides t)))
          = (fun i => (List.range (prodList t)).map (fun r => i * prodList t + r)) := by
        funext i
        rw [List.map_map]
        have h2 : ((fun j => dotList j (prodList t :: strides t)) ∘ (i :: ·))
            = ((fun r => i * prodList t + r) ∘ (fun j => dotList j (strides t))) := by
          funext j; simp [Function.comp, dotList_cons]
        rw [h2, ← List.map_map, ih]
      rw [h1, ← range_mul_flatMap]
      simp [prodList]

theorem multiIndices_len (ds : List Nat) : (multiIndices ds).length = prodList ds := by
  have := congrArg List.length (multiIndices_dot ds)
  simpa using this

theorem dot_strides_block_le : ∀ (t s : List Nat),
    List.Forall₂ (· < ·) t (s.take t.length) →
    dotList t (strides s) + prodList (s.drop t.length) ≤ prodList s := by
  intro t
  induction t with
  | nil => intro s _; simp [dotList]
  | cons i t ih =>
      intro s h
      cases s with
      | nil => simp [List.take_nil] at h
      | cons d ds =>
          rw [List.length_cons, List.take_succ_cons] at h
          cases h with
          | cons hid htail =>
              have hih := ih ds htail
              show dotList (i :: t) (prodList ds :: strides ds)
                  + prodList ((d :: ds).drop (t.length + 1)) ≤ prodList (d :: ds)
              rw [dotList_cons, List.drop_succ_cons]
              have h3 : prodList (d :: ds) = d * prodList ds := by simp [prodList]
              rw [h3]
              calc i * prodList ds + dotList t (strides ds) + prodList (ds.drop t.length)
                  ≤ i * prodList ds + prodList ds := by omega
                _ = (i + 1) * prodList ds := by ring
                _ ≤ d * prodList ds := Nat.mul_le_mul_right _ hid

theorem flatMap_block_take {α β : Type} : ∀ (l : List α) (f : α → List β) (m : Nat),
    (∀ x ∈ l, (f x).length = m) → ∀ (p : Nat) (hp : p < l.length),
    ((l.flatMap f).drop (p * m)).take m = f l[p] := by
  intro l
  induction l with
  | nil => intro f m _ p hp; simp at hp
  | cons x t ih =>
      intro f m hf p hp
      cases p with
      | zero =>
          simp only [List.flatMap_cons, Nat.zero_mul, List.drop_zero]
          rw [← hf x (by simp), List.take_left]
          rfl
      | succ q =>
          simp only [List.flatMap_cons]
          have hmul : (q + 1) * m = m + q * m := by ring
          have hd : List.drop m (f x ++ t.flatMap f) = t.flatMap f := by
            rw [← hf x (by simp)]; exact List.drop_left _ _
          rw [hmul, ← List.drop_drop, hd]
          exact ih f m (fun y hy => hf y (by simp [hy])) q (by simpa using hp)

theorem flatMap_const_length {α β : Type} : ∀ (l : List α) (f : α → List β) (m : Nat),
    (∀ x ∈ l, (f x).length = m) → (l.flatMap f).length = l.length * m := by
  intro l
  induction l with
  | nil => intro f m _; simp
  | cons x t ih =>
      intro f m hf
      simp only [List.flatMap_cons, List.length_append, List.length_cons]
      rw [hf x (by simp), ih f m (fun y hy => hf y (by simp [hy])), Nat.succ_mul]
      omega

theorem getD_map_range {β : Type} (f : Nat → β) (d : β) (n j : Nat) (hj : j < n) :
    ((List.range n).map f).getD j d = f j := by
  rw [List.getD_eq_getElem?_getD, List.getElem?_map, List.getElem?_range hj]
  rfl

theorem jtake_lt (params : List Int) (i : Nat) (h : i < params.length) :
    jtake params i = params.getD i 0 := by
  unfold jtake
  congr 1
  omega

/-! ## Claim C2: the gather_nd block property -/

/-- C2: for `k = indices.shape[-1] ≤ rank(params)` with all index tuples in
range, `gather_nd` returns a tensor of shape `indices.shape[:-1] ++
params.shape[k:]`, its data has the matching length, and for every index
tuple `t` (row `p` of the flattened indices) the corresponding contiguous
block of the result is exactly the full trailing slice `params[*t, ...]`:
the per-axis strides, the dot-product flat offset and the contiguous run of
`res_dim_sizes[k-1]` flat positions extract that slice. -/
theorem gather_nd_block_property (params : Tensor) (indicesFlat : List Nat)
    (indicesBase : List Nat) (k : Nat)
    (hk1 : 1 ≤ k) (hk2 : k ≤ params.shape.length)
    (hp : params.data.length = prodList params.shape)
    (hlen : indicesFlat.length = prodList (indicesBase ++ [k]))
    (hrange : ∀ p, p < prodList indicesBase →
      List.Forall₂ (· < ·) (idxTuple indicesFlat k p) (params.shape.take k)) :
    (gather_nd params ⟨indicesBase ++ [k], indicesFlat⟩).shape
        = indicesBase ++ params.shape.drop k
    ∧ (gather_nd params ⟨indicesBase ++ [k], indicesFlat⟩).data.length
        = prodList indicesBase * prodList (params.shape.drop k)
    ∧ ∀ p, p < prodList indicesBase →
      ((gather_nd params ⟨indicesBase ++ [k], indicesFlat⟩).data.drop
          (p * prodList (params.shape.drop k))).take (prodList (params.shape.drop k))
        = trailingSlice params.data params.shape (idxTuple indicesFlat k p) := by
  have hkl : (indicesBase ++ [k]).getLastD 0 = k := List.getLastD_concat _ _ _
  have hdl : (indicesBase ++ [k]).dropLast = indicesBase := List.dropLast_concat
  have hkne : ¬(k = 0) := by omega
  have hsne : params.shape ≠ [] := by
    intro h
    rw [h] at hk2
    simp at hk2
    omega
  have hres : res_dim_sizes params.shape = strides params.shape :=
    res_dim_sizes_eq_strides _ hsne
  have hfac : (strides params.shape).getD (k - 1) 0 = prodList (params.shape.drop k) := by
    rw [strides_getD _ _ (by omega), show k - 1 + 1 = k from by omega]
  have hgdata : (gather_nd params ⟨indicesBase ++ [k], indicesFlat⟩).data
      = ((List.range (prodList indicesBase)).map
          (fun q => dotList (idxTuple indicesFlat k q) ((strides params.shape).take k))).flatMap
          (fun o => (List.range (prodList (params.shape.drop k))).map
            (fun r => jtake params.data (o + r))) := by
    simp only [gather_nd, hkl, hdl, if_neg hkne, hres, hfac]
    rw [List.map_flatMap]
    congr 1
    funext o
    rw [List.map_map]
    rfl
  have hgshape : (gather_nd params ⟨indicesBase ++ [k], indicesFlat⟩).shape
      = indicesBase ++ params.shape.drop k := by
    simp only [gather_nd, hkl, hdl]
  have hglen : (gather_nd params ⟨indicesBase ++ [k], indicesFlat⟩).data.length
      = prodList indicesBase * prodList (params.shape.drop k) := by
    rw [hgdata, flatMap_const_length _ _ (prodList (params.shape.drop k)) (fun o _ => by simp)]
    simp
  refine ⟨hgshape, hglen, ?_⟩
  intro p hpN
  rw [hgdata]
  have hlist : p < ((List.range (prodList indicesBase)).map
      (fun q => dotList (idxTuple indicesFlat k q) ((strides params.shape).take k))).length := by
    simpa using hpN
  rw [flatMap_block_take _ _ (prodList (params.shape.drop k)) (fun o _ => by simp) p hlist]
  have hf2 := hrange p hpN
  have htl : (idxTuple indicesFlat k p).length = k := by
    have h := hf2.length_eq
    rwa [List.length_take, min_eq_left hk2] at h
  have hofftake : dotList (idxTuple indicesFlat k p) ((strides params.shape).take k)
      = dotList (idxTuple indicesFlat k p) (strides params.shape) := by
    rw [show ((strides params.shape).take k)
        = ((strides params.shape).take (idxTuple indicesFlat k p).length) from by rw [htl]]
    exact dotList_take_self _ _
  have hbound := dot_strides_block_le (idxTuple indicesFlat k p) params.shape (by rwa [htl])
  rw [htl] at hbound
  have helem : ((List.range (prodList indicesBase)).map
      (fun q => dotList (idxTuple indicesFlat k q) ((strides params.shape).take k)))[p]
      = dotList (idxTuple indicesFlat k p) (strides params.shape) := by
    simp only [List.getElem_map, List.getElem_range, hofftake]
  rw [helem]
  have hjt : ∀ r, r < prodList (params.shape.drop k) →
      jtake params.data (dotList (idxTuple indicesFlat k p) (strides params.shape) + r)
        = params.data.getD (dotList (idxTuple indicesFlat k p) (strides params.shape) + r) 0 := by
    intro r hr
    apply jtake_lt
    omega
  have hsplit : ∀ j : List Nat,
      dotList (idxTuple indicesFlat k p ++ j) (strides params.shape)
        = dotList (idxTuple indicesFlat k p) (strides params.shape)
          + dotList j (strides (params.shape.drop k)) := by
    intro j
    rw [dotList_append_split, htl, strides_drop]
  simp only [trailingSlice, elemAt, htl]
  calc (List.range (prodList (params.shape.drop k))).map
        (fun r => jtake params.data
          (dotList (idxTuple indicesFlat k p) (strides params.shape) + r))
      = (List.range (prodList (params.shape.drop k))).map
        (fun r => params.data.getD
          (dotList (idxTuple indicesFlat k p) (strides params.shape) + r) 0) := by
        apply List.map_congr_left
        intro r hr
        exact hjt r (by simpa using hr)
    _ = ((multiIndices (params.shape.drop k)).map
          (fun j => dotList j (strides (params.shape.drop k)))).map
        (fun v => params.data.getD
          (dotList (idxTuple indicesFlat k p) (strides params.shape) + v) 0) := by
        rw [multiIndices_dot]
    _ = (multiIndices (params.shape.drop k)).map
        (fun j => params.data.getD
          (dotList (idxTuple indicesFlat k p ++ j) (strides params.shape)) 0) := by
        rw [List.map_map]
        apply List.map_congr_left
        intro j hj
        simp [Function.comp, hsplit j]

/-- Witness for C2: a concrete 2x2 array gathered at tuples `[1]` and `[0]`;
the block at tuple position 1 is the trailing slice at that tuple. -/
theorem gather_nd_block_property_witness :
    ((gather_nd ⟨[2, 2], [1, 2, 3, 4]⟩ ⟨[2] ++ [1], [1, 0]⟩).data.drop
        (1 * prodList ([2, 2].drop 1))).take (prodList ([2, 2].drop 1))
      = trailingSlice [1, 2, 3, 4] [2, 2] (idxTuple [1, 0] 1 1) :=
  (gather_nd_block_property ⟨[2, 2], [1, 2, 3, 4]⟩ [1, 0] [2] 1 (by decide) (by decide)
    (by decide) (by decide) (by decide)).2.2 1 (by decide)

/-! ## Helper lemmas about the scatter dispatch -/

theorem scatter_flat_core_flag (indices : List Nat) (updates : List Int) (size : Option Nat)
    (reduction : String) (out : Option Tensor) (t : Tensor) (b : Bool)
    (h : scatter_flat_core indices updates size reduction out = .ok (t, b)) : b = false := by
  unfold scatter_flat_core at h
  (repeat' split at h) <;> simp_all

theorem scatter_nd_core_flag (tuplesK : Option (Nat × List (List Nat))) (updates : Tensor)
    (shape : List Nat) (reduction : String) (out : Option Tensor) (t : Tensor) (b : Bool)
    (h : scatter_nd_core tuplesK updates shape reduction out = .ok (t, b)) : b = out.isSome := by
  unfold scatter_nd_core at h
  (repeat' split at h) <;> simp_all [scatter_nd_apply, scatterEllipsisOp]

theorem scatter_flat_core_invalid (indices : List Nat) (updates : List Int) (size : Option Nat)
    (out : Option Tensor) (reduction : String)
    (h1 : reduction ≠ "sum") (h2 : reduction ≠ "replace") (h3 : reduction ≠ "min")
    (h4 : reduction ≠ "max") :
    scatter_flat_core indices updates size reduction out
      = .error (.invalidReduction reduction) := by
  unfold scatter_flat_core
  rw [if_neg h1, if_neg h2, if_neg h3, if_neg h4]

theorem scatter_nd_core_invalid (tuplesK : Option (Nat × List (List Nat))) (updates : Tensor)
    (shape : List Nat) (out : Option Tensor) (reduction : String)
    (h1 : reduction ≠ "sum") (h2 : reduction ≠ "replace") (h3 : reduction ≠ "min")
    (h4 : reduction ≠ "max") :
    scatter_nd_core tuplesK updates shape reduction out
      = .error (.invalidReduction reduction) := by
  unfold scatter_nd_core
  rw [if_neg h1, if_neg h2, if_neg h3, if_neg h4]

theorem broadcastTo_shape {α : Type} (t : GTensor α) (s : List Nat) (d : α) (u : GTensor α)
    (h : broadcastTo t s d = some u) : u.shape = s := by
  unfold broadcastTo at h
  split at h
  · cases h
    rfl
  · cases h

theorem scatterOp_length (op : Int → Int → Int) (target : List Int) (indices : List Nat)
    (updates : List Int) : (scatterOp op target indices updates).length = target.length := by
  simp [scatterOp]

theorem scatterOp_untouched (op : Int → Int → Int) (target : List Int) (indices : List Nat)
    (updates : List Int) (j : Nat)
    (h : ((indices.zip updates).map Prod.fst).all (fun i => i != j) = true) :
    (scatterOp op target indices updates).getD j 0 = target.getD j 0 := by
  by_cases hj : j < target.length
  · unfold scatterOp
    rw [getD_map_range _ _ _ _ hj]
    have hfil : (indices.zip updates).filter (fun iu => iu.1 == j) = [] := by
      rw [List.filter_eq_nil_iff]
      intro iu hiu
      have h2 := List.all_eq_true.mp h iu.1 (List.mem_map_of_mem Prod.fst hiu)
      simpa using h2
    rw [hfil]
    rfl
  · rw [List.getD_eq_default _ _ (by rw [scatterOp_length]; omega),
      List.getD_eq_default _ _ (by omega)]

theorem scatterNdOp_length (op : Int → Int → Int) (shape : List Nat) (target : List Int)
    (k : Nat) (tuples : List (List Nat)) (upd : List Int) :
    (scatterNdOp op shape target k tuples upd).length = target.length := by
  simp [scatterNdOp]

theorem scatterNdOp_untouched (op : Int → Int → Int) (shape : List Nat) (target : List Int)
    (k : Nat) (tuples : List (List Nat)) (upd : List Int) (pos : Nat)
    (h : ndUpdatesAt shape k tuples upd pos = []) :
    (scatterNdOp op shape target k tuples upd).getD pos 0 = target.getD pos 0 := by
  by_cases hp : pos < target.length
  · unfold scatterNdOp
    rw [getD_map_range _ _ _ _ hp, h]
    rfl
  · rw [List.getD_eq_default _ _ (by rw [scatterNdOp_length]; omega),
      List.getD_eq_default _ _ (by omega)]

/-! ## Claim C1 -/

/-- C1 (counterexample): a `scatter_flat` call with a supplied output buffer
returns its result directly; the routed-through-`inplace_update` flag of the
embedding is `false`, so the claimed in-place-update application does not
happen. -/
theorem scatter_flat_out_not_inplace_cex :
    scatter_flat [0] [1] none "sum" (some ⟨[1], [0]⟩) = .ok (⟨[1], [1]⟩, false) := rfl

/-- C1 (amended): `scatter_flat` never routes its result through the
framework's in-place-update contract, even when an output buffer is
supplied; it is `scatter_nd` that routes its result through
`ivy.inplace_update`, exactly when an output buffer is supplied. -/
theorem scatter_inplace_routing :
    (∀ indices updates size reduction out t b,
      scatter_flat indices updates size reduction out = .ok (t, b) → b = false)
    ∧ (∀ indices₀ updates shape reduction out t b,
      scatter_nd indices₀ updates shape reduction out = .ok (t, b) → b = out.isSome) := by
  constructor
  · intro indices updates size reduction out t b h
    unfold scatter_flat at h
    (repeat' split at h) <;>
      first
        | exact scatter_flat_core_flag _ _ _ _ _ _ _ h
        | simp_all
  · intro indices₀ updates shape reduction out t b h
    unfold scatter_nd at h
    (repeat' split at h) <;>
      first
        | exact scatter_nd_core_flag _ _ _ _ _ _ _ h
        | simp_all

/-- Witness for C1's amended theorem, at the two concrete calls. -/
theorem scatter_inplace_routing_witness :
    (false : Bool) = false ∧ (true : Bool) = (some (⟨[2], [7, 9]⟩ : Tensor)).isSome :=
  ⟨scatter_inplace_routing.1 [0] [1] none "sum" (some ⟨[1], [0]⟩) ⟨[1], [1]⟩ false rfl,
   scatter_inplace_routing.2 (.arrIdx ⟨[1, 1], [0]⟩) ⟨[1], [5]⟩ none "min" (some ⟨[2], [7, 9]⟩)
     ⟨[2], [5, 9]⟩ true rfl⟩

/-! ## Claim C3 -/

/-- C3: in `scatter_nd`'s array-indices path the expected shape is
`indices.shape[:-1] ++ trailing` with the trailing shape from `out` when it
exists, else from the explicit `shape`; updates smaller than expected (by
summed shape dimensions) are broadcast up to the expected shape, larger
updates instead broadcast the indices up to `updates.shape[:1] ++ [k]`, and
equal sums broadcast neither side. -/
theorem scatter_nd_broadcast_decision (it : NatTensor) (updates : Tensor)
    (outShape shape : Option (List Nat)) (expected : List Nat)
    (hexp : scatter_nd_expected_shape it.shape outShape shape = some expected) :
    (∀ os, outShape = some os →
      expected = it.shape.dropLast ++ os.drop (it.shape.getLastD 0))
    ∧ (∀ s, outShape = none → shape = some s →
      expected = it.shape.dropLast ++ s.drop (it.shape.getLastD 0))
    ∧ (∀ u, updates.shape.sum < expected.sum → broadcastTo updates expected 0 = some u →
      scatter_nd_resolve it updates outShape shape = .ok (it, u) ∧ u.shape = expected)
    ∧ (∀ it2, expected.sum < updates.shape.sum →
      broadcastTo it (updates.shape.take 1 ++ [it.shape.getLastD 0]) 0 = some it2 →
      scatter_nd_resolve it updates outShape shape = .ok (it2, updates)
        ∧ it2.shape = updates.shape.take 1 ++ [it.shape.getLastD 0])
    ∧ (updates.shape.sum = expected.sum →
      scatter_nd_resolve it updates outShape shape = .ok (it, updates)) := by
  refine ⟨?_, ?_, ?_, ?_, ?_⟩
  · intro os hos
    rw [hos] at hexp
    cases shape <;> simp_all [scatter_nd_expected_shape]
  · intro s h1 h2
    rw [h1, h2] at hexp
    simp_all [scatter_nd_expected_shape]
  · intro u hlt hbc
    refine ⟨?_, broadcastTo_shape _ _ _ _ hbc⟩
    simp only [scatter_nd_resolve, hexp]
    rw [if_pos hlt, hbc]
  · intro it2 hgt hbc
    refine ⟨?_, broadcastTo_shape _ _ _ _ hbc⟩
    simp only [scatter_nd_resolve, hexp]
    rw [if_neg (by omega), if_pos hgt, hbc]
  · intro heq
    simp only [scatter_nd_resolve, hexp]
    rw [if_neg (by omega), if_neg (by omega)]

/-- Witness for C3, covering the equal-sums and smaller-updates branches. -/
theorem scatter_nd_broadcast_decision_witness :
    (scatter_nd_resolve ⟨[1, 1], [0]⟩ ⟨[1], [5]⟩ none (some [3]) = .ok (⟨[1, 1], [0]⟩, ⟨[1], [5]⟩))
    ∧ (scatter_nd_resolve ⟨[2, 1], [1, 0]⟩ ⟨[2], [7, 8]⟩ none (some [3, 2])
        = .ok (⟨[2, 1], [1, 0]⟩, ⟨[2, 2], [7, 8, 7, 8]⟩)) :=
  ⟨(scatter_nd_broadcast_decision ⟨[1, 1], [0]⟩ ⟨[1], [5]⟩ none (some [3]) [1] rfl).2.2.2.2
      (by decide),
   ((scatter_nd_broadcast_decision ⟨[2, 1], [1, 0]⟩ ⟨[2], [7, 8]⟩ none (some [3, 2]) [2, 2]
      rfl).2.2.1 ⟨[2, 2], [7, 8, 7, 8]⟩ (by decide) rfl).1⟩

/-! ## Claim C4 -/

/-- C4: `scatter_flat([0,2], [5,3], size=4, reduction="min")` with no output
buffer returns exactly `[5, 0, 3, 0]`: a fresh target pre-filled with the
`+1e12` sentinel, elementwise min at the indices, and every position still
holding the sentinel rewritten to 0 before return; symmetrically `"max"`
uses the `-1e12` sentinel (and returns the same values on these inputs). -/
theorem scatter_flat_min_sentinel_example :
    scatter_flat [0, 2] [5, 3] (some 4) "min" none = .ok (⟨[4], [5, 0, 3, 0]⟩, false)
    ∧ scatter_flat [0, 2] [5, 3] (some 4) "max" none = .ok (⟨[4], [5, 0, 3, 0]⟩, false) :=
  ⟨rfl, rfl⟩

/-! ## Claim C5 -/

/-- C5: with a reduction string other than "sum", "replace", "min" or "max",
`scatter_flat` and `scatter_nd` fail with the invalid-argument error carrying
the offending reduction value, and never silently default (the hypotheses
only require the earlier shape checks and preprocessing to pass). -/
theorem scatter_invalid_reduction :
    (∀ indices updates size out reduction,
      reduction ≠ "sum" → reduction ≠ "replace" → reduction ≠ "min" → reduction ≠ "max" →
      (∀ s t, size = some s → out = some t → t.shape.length = 1 ∧ t.shape.getD 0 0 = s) →
      scatter_flat indices updates size reduction out = .error (.invalidReduction reduction))
    ∧ (∀ indices₀ updates shape out reduction v,
      reduction ≠ "sum" → reduction ≠ "replace" → reduction ≠ "min" → reduction ≠ "max" →
      scatter_nd_pre indices₀ updates shape out = .ok v →
      (∀ s t, shape = some s → out = some t → t.shape = s) →
      ¬(shape = none ∧ out = none) →
      scatter_nd indices₀ updates shape reduction out = .error (.invalidReduction reduction)) := by
  constructor
  · intro indices updates size out reduction h1 h2 h3 h4 hchk
    unfold scatter_flat
    cases size with
    | none => cases out <;> exact scatter_flat_core_invalid _ _ _ _ _ h1 h2 h3 h4
    | some s =>
        cases out with
        | none => exact scatter_flat_core_invalid _ _ _ _ _ h1 h2 h3 h4
        | some t =>
            obtain ⟨hr1, hr2⟩ := hchk s t rfl rfl
            show (if t.shape.length = 1 then
                if t.shape.getD 0 0 = s then
                  scatter_flat_core indices updates (some s) reduction (some t)
                else .error .assertionError
              else .error .assertionError) = .error (.invalidReduction reduction)
            rw [if_pos hr1, if_pos hr2]
            exact scatter_flat_core_invalid _ _ _ _ _ h1 h2 h3 h4
  · intro indices₀ updates shape out reduction v h1 h2 h3 h4 hpre hchk hne
    obtain ⟨tk, u2⟩ := v
    cases shape with
    | some s =>
        cases out with
        | some t =>
            have hts := hchk s t rfl rfl
            unfold scatter_nd
            rw [hpre]
            show (if t.shape = s then scatter_nd_core tk u2 s reduction (some t)
              else .error .assertionError) = .error (.invalidReduction reduction)
            rw [if_pos hts]
            exact scatter_nd_core_invalid _ _ _ _ _ h1 h2 h3 h4
        | none =>
            unfold scatter_nd
            rw [hpre]
            show scatter_nd_core tk u2 s reduction none = .error (.invalidReduction reduction)
            exact scatter_nd_core_invalid _ _ _ _ _ h1 h2 h3 h4
    | none =>
        cases out with
        | some t =>
            unfold scatter_nd
            rw [hpre]
            show scatter_nd_core tk u2 t.shape reduction (some t)
              = .error (.invalidReduction reduction)
            exact scatter_nd_core_invalid _ _ _ _ _ h1 h2 h3 h4
        | none => exact absurd ⟨rfl, rfl⟩ hne

/-- Witness for C5 at the reduction string "avg". -/
theorem scatter_invalid_reduction_witness :
    scatter_flat [0] [1] (some 3) "avg" none = .error (.invalidReduction "avg")
    ∧ scatter_nd (.arrIdx ⟨[1, 1], [0]⟩) ⟨[1], [5]⟩ (some [3]) "avg" none
      = .error (.invalidReduction "avg") :=
  ⟨scatter_invalid_reduction.1 [0] [1] (some 3) none "avg" (by decide) (by decide) (by decide)
      (by decide) (fun s t _ ht => by cases ht),
   scatter_invalid_reduction.2 (.arrIdx ⟨[1, 1], [0]⟩) ⟨[1], [5]⟩ (some [3]) none "avg"
      (some (1, [[0]]), ⟨[1], [5]⟩) (by decide) (by decide) (by decide) (by decide) rfl
      (fun s t _ ht => by cases ht) (by simp)⟩

/-! ## Claim C6 -/

/-- C6: `inplace_update` with `ensure_in_backend=False`: on a framework-owned
wrapper and an array value it rebinds the wrapper's data to the value's
native buffer and returns the wrapper; on a bare native array it fails with
the unsupported-operation error; on a non-array `x` it is a passthrough
returning `val`. -/
theorem inplace_update_contract :
    (∀ d val, is_array val = true →
      inplace_update (.ivyArr d) val false = .ok (.ivyArr (toNative val)))
    ∧ (∀ d val, is_array val = true →
      inplace_update (.nativeArr d) val false = .error .inplaceNotSupported)
    ∧ (∀ x val, is_array x = false → inplace_update x val false = .ok val) := by
  refine ⟨?_, ?_, ?_⟩
  · intro d val h
    cases val <;> simp_all [inplace_update, is_array, is_ivy_array, toNative]
  · intro d val h
    cases val <;> simp_all [inplace_update, is_array, is_ivy_array]
  · intro x val h
    cases x <;> simp_all [inplace_update, is_array]

/-- Witness for C6 at concrete wrapper, native and non-array receivers. -/
theorem inplace_update_contract_witness :
    inplace_update (.ivyArr [1]) (.nativeArr [2]) false = .ok (.ivyArr [2])
    ∧ inplace_update (.nativeArr [1]) (.nativeArr [2]) false = .error .inplaceNotSupported
    ∧ inplace_update (.nonArray 7) (.nativeArr [2]) false = .ok (.nativeArr [2]) :=
  ⟨inplace_update_contract.1 [1] (.nativeArr [2]) rfl,
   inplace_update_contract.2.1 [1] (.nativeArr [2]) rfl,
   inplace_update_contract.2.2 (.nonArray 7) (.nativeArr [2]) rfl⟩

/-! ## Claim C7 -/

/-- C7 (counterexample): `inplace_update` with `ensure_in_backend=True` does
not always fail: with a non-array receiver it silently passes `val` through,
because the ensure check sits inside the both-arguments-are-arrays branch. -/
theorem inplace_update_ensure_passthrough_cex :
    inplace_update (.nonArray 0) (.nonArray 1) true = .ok (.nonArray 1) := rfl

/-- C7 (amended): `ensure_in_backend=True` fails with the
"not natively supported" error whenever `x` and `val` are both arrays,
regardless of whether `x` is a wrapper or a bare native array; when either
argument is not an array the call is a passthrough returning `val` even with
`ensure_in_backend=True`. -/
theorem inplace_update_ensure_fails_on_arrays :
    (∀ x val, is_array x = true → is_array val = true →
      inplace_update x val true = .error .inplaceNotSupported)
    ∧ (∀ x val, (is_array x && is_array val) = false → inplace_update x val true = .ok val) := by
  constructor
  · intro x val hx hval
    simp [inplace_update, hx, hval]
  · intro x val h
    simp [inplace_update, h]

/-- Witness for C7's amended theorem. -/
theorem inplace_update_ensure_fails_on_arrays_witness :
    inplace_update (.ivyArr [1]) (.nativeArr [2]) true = .error .inplaceNotSupported
    ∧ inplace_update (.nonArray 3) (.ivyArr [1]) true = .ok (.ivyArr [1]) :=
  ⟨inplace_update_ensure_fails_on_arrays.1 (.ivyArr [1]) (.nativeArr [2]) rfl rfl,
   inplace_update_ensure_fails_on_arrays.2 (.nonArray 3) (.ivyArr [1]) rfl⟩

/-! ## Claim C8 -/

/-- C8: `inplace_increment` and `inplace_decrement` are total (they never
raise): a framework-owned wrapper is returned with its data slot rebound to
`data ± val`, and a non-wrapper receiver yields a freshly constructed
wrapper holding `x ± val` instead of an error — asymmetric from
`inplace_update`'s failure on bare native arrays. -/
theorem inplace_increment_decrement_contract :
    (∀ d val, inplace_increment (.ivyArr d) val
      = .ivyArr (List.zipWith (· + ·) d (toNative val)))
    ∧ (∀ d val, inplace_increment (.nativeArr d) val
      = .ivyArr (List.zipWith (· + ·) d (toNative val)))
    ∧ (∀ d val, inplace_decrement (.ivyArr d) val
      = .ivyArr (List.zipWith (· - ·) d (toNative val)))
    ∧ (∀ d val, inplace_decrement (.nativeArr d) val
      = .ivyArr (List.zipWith (· - ·) d (toNative val))) :=
  ⟨fun _ _ => rfl, fun _ _ => rfl, fun _ _ => rfl, fun _ _ => rfl⟩

/-! ## Claim C9 -/

/-- C9: when both the size/shape argument and an output buffer are given,
`scatter_flat` proceeds exactly when the buffer has rank 1 and length
`size`, failing with the assertion error otherwise, and `scatter_nd`
proceeds exactly when the buffer's shape equals the explicit shape, failing
with the assertion error otherwise; the check sits before the reduction
dispatch (the conclusions hold for every reduction string), and a failed
call returns an error, not a partial result. -/
theorem scatter_shape_checks :
    (∀ indices updates s (t : Tensor) reduction,
      ¬(t.shape.length = 1 ∧ t.shape.getD 0 0 = s) →
      scatter_flat indices updates (some s) reduction (some t) = .error .assertionError)
    ∧ (∀ indices updates s (t : Tensor) reduction,
      t.shape.length = 1 → t.shape.getD 0 0 = s →
      scatter_flat indices updates (some s) reduction (some t)
        = scatter_flat_core indices updates (some s) reduction (some t))
    ∧ (∀ indices₀ updates s (t : Tensor) reduction v,
      scatter_nd_pre indices₀ updates (some s) (some t) = .ok v → t.shape ≠ s →
      scatter_nd indices₀ updates (some s) reduction (some t) = .error .assertionError)
    ∧ (∀ indices₀ updates s (t : Tensor) reduction tk u2,
      scatter_nd_pre indices₀ updates (some s) (some t) = .ok (tk, u2) → t.shape = s →
      scatter_nd indices₀ updates (some s) reduction (some t)
        = scatter_nd_core tk u2 s reduction (some t)) := by
  refine ⟨?_, ?_, ?_, ?_⟩
  · intro indices updates s t reduction h
    show (if t.shape.length = 1 then
        if t.shape.getD 0 0 = s then
          scatter_flat_core indices updates (some s) reduction (some t)
        else .error .assertionError
      else .error .assertionError) = .error .assertionError
    by_cases h1 : t.shape.length = 1
    · rw [if_pos h1, if_neg (fun h2 => h ⟨h1, h2⟩)]
    · rw [if_neg h1]
  · intro indices updates s t reduction h1 h2
    show (if t.shape.length = 1 then
        if t.shape.getD 0 0 = s then
          scatter_flat_core indices updates (some s) reduction (some t)
        else .error .assertionError
      else .error .assertionError)
      = scatter_flat_core indices updates (some s) reduction (some t)
    rw [if_pos h1, if_pos h2]
  · intro indices₀ updates s t reduction v hpre hne
    obtain ⟨tk, u2⟩ := v
    unfold scatter_nd
    rw [hpre]
    show (if t.shape = s then scatter_nd_core tk u2 s reduction (some t)
      else .error .assertionError) = .error .assertionError
    rw [if_neg hne]
  · intro indices₀ updates s t reduction tk u2 hpre hts
    unfold scatter_nd
    rw [hpre]
    show (if t.shape = s then scatter_nd_core tk u2 s reduction (some t)
      else .error .assertionError) = scatter_nd_core tk u2 s reduction (some t)
    rw [if_pos hts]

/-- Witness for C9: a rank-2 buffer with `size=3`, and a buffer/shape
disagreement for `scatter_nd`. -/
theorem scatter_shape_checks_witness :
    scatter_flat [0] [1] (some 3) "sum" (some ⟨[2, 2], [0, 0, 0, 0]⟩) = .error .assertionError
    ∧ scatter_nd (.arrIdx ⟨[1, 1], [0]⟩) ⟨[1], [5]⟩ (some [3]) "sum" (some ⟨[2], [0, 0]⟩)
      = .error .assertionError :=
  ⟨scatter_shape_checks.1 [0] [1] 3 ⟨[2, 2], [0, 0, 0, 0]⟩ "sum" (by decide),
   scatter_shape_checks.2.2.1 (.arrIdx ⟨[1, 1], [0]⟩) ⟨[1], [5]⟩ [3] ⟨[2], [0, 0]⟩ "sum"
     (some (1, [[0]]), ⟨[1], [5]⟩) rfl (by decide)⟩

/-! ## Claim C10 -/

/-- C10: with a caller-supplied output buffer, the min/max reductions of
`scatter_flat` and `scatter_nd` perform neither the ±1e12 sentinel pre-fill
nor the sentinel-to-zero post-fix: the elementwise min/max is applied
directly against the buffer's existing contents, positions not addressed by
any index keep the buffer's original values, and a pre-existing buffer value
equal to ±1e12 is preserved, never rewritten to 0. -/
theorem scatter_minmax_out_direct :
    (∀ indices updates (t : Tensor) size,
      (∀ s, size = some s → t.shape.length = 1 ∧ t.shape.getD 0 0 = s) →
      scatter_flat indices updates size "min" (some t)
        = .ok (⟨t.shape, scatterOp min t.data indices updates⟩, false)
      ∧ scatter_flat indices updates size "max" (some t)
        = .ok (⟨t.shape, scatterOp max t.data indices updates⟩, false))
    ∧ (∀ op (target : List Int) indices updates j,
      ((indices.zip updates).map Prod.fst).all (fun i => i != j) = true →
      (scatterOp op target indices updates).getD j 0 = target.getD j 0
      ∧ (target.getD j 0 = sentinel → (scatterOp op target indices updates).getD j 0 = sentinel)
      ∧ (target.getD j 0 = -sentinel →
          (scatterOp op target indices updates).getD j 0 = -sentinel))
    ∧ (∀ (it : NatTensor) (updates t : Tensor),
      2 ≤ it.shape.length →
      updates.shape.sum = (it.shape.dropLast ++ t.shape.drop (it.shape.getLastD 0)).sum →
      scatter_nd (.arrIdx it) updates none "min" (some t)
        = .ok (⟨t.shape, scatterNdOp min t.shape t.data (it.shape.getLastD 0)
            (idxTuples it) updates.data⟩, true)
      ∧ scatter_nd (.arrIdx it) updates none "max" (some t)
        = .ok (⟨t.shape, scatterNdOp max t.shape t.data (it.shape.getLastD 0)
            (idxTuples it) updates.data⟩, true))
    ∧ (∀ op shape (target : List Int) k tuples upd pos,
      ndUpdatesAt shape k tuples upd pos = [] →
      (scatterNdOp op shape target k tuples upd).getD pos 0 = target.getD pos 0
      ∧ (target.getD pos 0 = sentinel →
          (scatterNdOp op shape target k tuples upd).getD pos 0 = sentinel)) := by
  refine ⟨?_, ?_, ?_, ?_⟩
  · intro indices updates t size hsz
    have hred : ∀ red, scatter_flat indices updates size red (some t)
        = scatter_flat_core indices updates size red (some t) := by
      intro red
      cases size with
      | none => rfl
      | some s =>
          obtain ⟨h1, h2⟩ := hsz s rfl
          show (if t.shape.length = 1 then
              if t.shape.getD 0 0 = s then
                scatter_flat_core indices updates (some s) red (some t)
              else .error .assertionError
            else .error .assertionError)
            = scatter_flat_core indices updates (some s) red (some t)
          rw [if_pos h1, if_pos h2]
    constructor
    · rw [hred "min"]
      unfold scatter_flat_core
      rw [if_neg (by decide), if_neg (by decide), if_pos rfl]
    · rw [hred "max"]
      unfold scatter_flat_core
      rw [if_neg (by decide), if_neg (by decide), if_neg (by decide), if_pos rfl]
  · intro op target indices updates j h
    have hu := scatterOp_untouched op target indices updates j h
    exact ⟨hu, fun hs => by rw [hu, hs], fun hs => by rw [hu, hs]⟩
  · intro it updates t hrank hsum
    have hnorm : normalizeIndices (.arrIdx it) = some it := by
      simp only [normalizeIndices]
      rw [if_neg (by omega)]
    have hres : scatter_nd_resolve it updates (some t.shape) none = .ok (it, updates) := by
      simp only [scatter_nd_resolve, scatter_nd_expected_shape]
      rw [if_neg (by omega), if_neg (by omega)]
    have hpre : scatter_nd_pre (.arrIdx it) updates none (some t)
        = .ok (some (it.shape.getLastD 0, idxTuples it), updates) := by
      simp only [scatter_nd_pre, hnorm, Option.map_some', hres]
    constructor
    · unfold scatter_nd
      rw [hpre]
      show scatter_nd_core (some (it.shape.getLastD 0, idxTuples it)) updates t.shape "min"
        (some t) = _
      unfold scatter_nd_core
      rw [if_neg (by decide), if_neg (by decide), if_pos rfl]
      rfl
    · unfold scatter_nd
      rw [hpre]
      show scatter_nd_core (some (it.shape.getLastD 0, idxTuples it)) updates t.shape "max"
        (some t) = _
      unfold scatter_nd_core
      rw [if_neg (by decide), if_neg (by decide), if_neg (by decide), if_pos rfl]
      rfl
  · intro op shape target k tuples upd pos h
    have hu := scatterNdOp_untouched op shape target k tuples upd pos h
    exact ⟨hu, fun hs => by rw [hu, hs]⟩

/-- Witness for C10 at concrete buffers: a supplied buffer containing the
sentinel keeps it at the unaddressed position, for both functions. -/
theorem scatter_minmax_out_direct_witness :
    scatter_flat [0] [5] none "min" (some ⟨[2], [7, sentinel]⟩)
      = .ok (⟨[2], scatterOp min [7, sentinel] [0] [5]⟩, false)
    ∧ (scatterOp min [7, sentinel] [0] [5]).getD 1 0 = [7, sentinel].getD 1 0
    ∧ scatter_nd (.arrIdx ⟨[1, 1], [0]⟩) ⟨[1], [5]⟩ none "min" (some ⟨[2], [7, 9]⟩)
      = .ok (⟨[2], scatterNdOp min [2] [7, 9] 1 (idxTuples ⟨[1, 1], [0]⟩) [5]⟩, true)
    ∧ (scatterNdOp min [2] [7, 9] 1 (idxTuples ⟨[1, 1], [0]⟩) [5]).getD 1 0 = [7, 9].getD 1 0 :=
  ⟨(scatter_minmax_out_direct.1 [0] [5] ⟨[2], [7, sentinel]⟩ none
      (fun s hs => by cases hs)).1,
   (scatter_minmax_out_direct.2.1 min [7, sentinel] [0] [5] 1 (by decide)).1,
   (scatter_minmax_out_direct.2.2.1 ⟨[1, 1], [0]⟩ ⟨[1], [5]⟩ ⟨[2], [7, 9]⟩ (by decide)
      (by decide)).1,
   (scatter_minmax_out_direct.2.2.2 min [2] [7, 9] 1 (idxTuples ⟨[1, 1], [0]⟩) [5] 1
      (by decide)).1⟩
